import Mathlib

/-!
Verification of the mcp-ffmpeg repository: a shallow embedding of the MCP
tool server (src/mcp-ffmpeg.ts) and of the HTTP upload API
(server.js + controllers/ffmpegController.js), together with theorems
settling the frozen claims about them.

File-system effects (fs.access, fs.mkdir), the node-notifier callback and
the child-process outcomes are modelled as an explicit environment record;
each tool handler is a pure function from its arguments and that
environment to its MCP result plus a trace of the externally visible
events it performs, in program order.
-/

namespace McpFfmpeg

/-! ## Minimal model of the node `path` functions used by the handlers

The helpers are written over `List Char` with structural recursion so
the kernel can evaluate them on concrete paths. -/

/-- Split a character list at every occurrence of `sep`
(the semantics of `split` at a one-character separator). -/
def splitChar (sep : Char) : List Char → List (List Char)
  | [] => [[]]
  | c :: rest =>
      if c = sep then [] :: splitChar sep rest
      else
        match splitChar sep rest with
        | [] => [c] :: []
        | h :: t => (c :: h) :: t

/-- The `/`-separated components of a path. -/
def pathComponents (p : String) : List String :=
  (splitChar '/' p.toList).map (fun cs => String.mk cs)

/-- node `path.basename(p)`: the last non-empty `/`-separated component. -/
def pathBasename (p : String) : String :=
  match ((pathComponents p).filter (fun s => s ≠ "")).getLast? with
  | some b => b
  | none => ""

/-- Index of the last occurrence of a dot in a list of characters. -/
def lastDotIndex (cs : List Char) : Option Nat :=
  ((List.range cs.length).filter (fun i => cs.get? i = some '.')).getLast?

/-- node `path.extname(p)`: the suffix of the basename from its last dot;
empty when the basename has no dot or only a leading dot. -/
def pathExtname (p : String) : String :=
  let b := (pathBasename p).toList
  match lastDotIndex b with
  | none => ""
  | some 0 => ""
  | some i => String.mk (b.drop i)

/-- Whether `suffix` is a suffix of `l`. -/
def listEndsWith (l suffix : List Char) : Bool :=
  suffix.reverse.isPrefixOf l.reverse

/-- node `path.basename(p, ext)`: the basename with the suffix `ext`
stripped, unless the whole basename equals `ext`. -/
def pathBasenameExt (p ext : String) : String :=
  let b := pathBasename p
  if ext != "" && b != ext && listEndsWith b.toList ext.toList then
    String.mk (b.toList.take (b.toList.length - ext.toList.length))
  else b

/-- node `path.parse(p).name`: the basename without its extension. -/
def parseName (p : String) : String := pathBasenameExt p (pathExtname p)

/-- node `path.join(a, b)` for the plain two-segment joins the code makes. -/
def pathJoin (a b : String) : String := a ++ "/" ++ b

/-- Fold normalizing path components (`""` and `"."` dropped, `".."` pops). -/
def normalizeAbs (parts : List String) : List String :=
  parts.foldl
    (fun acc part =>
      if part == "" || part == "." then acc
      else if part == ".." then acc.dropLast
      else acc ++ [part])
    []

/-- Whether a path is absolute. -/
def startsWithSlash (p : String) : Bool :=
  match p.toList with
  | [] => false
  | c :: _ => c = '/'

/-- Concatenate strings with a separator between them. -/
def joinSep (sep : String) : List String → String
  | [] => ""
  | [s] => s
  | s :: rest => s ++ sep ++ joinSep sep rest

/-- node `path.resolve(p)` against a current working directory `cwd`
(assumed absolute): absolute `p` is normalized, relative `p` is resolved
under `cwd`. -/
def pathResolve (cwd p : String) : String :=
  let full := if startsWithSlash p then p else cwd ++ "/" ++ p
  "/" ++ joinSep "/" (normalizeAbs (pathComponents full))

/-! ## Data model: resolutions and audio formats -/

/-- The four resolutions of the zod enum of the `resize-video` tool. -/
inductive Resolution
  | r360p
  | r480p
  | r720p
  | r1080p
deriving DecidableEq, Repr

/-- The wire name of a resolution. -/
def Resolution.name : Resolution → String
  | .r360p => "360p"
  | .r480p => "480p"
  | .r720p => "720p"
  | .r1080p => "1080p"

/-- The `RESOLUTIONS` table of src/mcp-ffmpeg.ts: width and height. -/
def RESOLUTIONS : Resolution → Nat × Nat
  | .r360p => (640, 360)
  | .r480p => (854, 480)
  | .r720p => (1280, 720)
  | .r1080p => (1920, 1080)

/-- The four audio formats of the zod enum of the `extract-audio` tool. -/
inductive AudioFormat
  | mp3
  | aac
  | wav
  | ogg
deriving DecidableEq, Repr

/-- The wire name of an audio format. -/
def AudioFormat.name : AudioFormat → String
  | .mp3 => "mp3"
  | .aac => "aac"
  | .wav => "wav"
  | .ogg => "ogg"

/-- The `switch (format)` of the MCP `extract-audio` tool choosing the
ffmpeg audio codec. -/
def mcpAudioCodec : AudioFormat → String
  | .mp3 => "libmp3lame"
  | .aac => "aac"
  | .wav => "pcm_s16le"
  | .ogg => "libvorbis"

/-- The nested conditional of the HTTP controller's `extractAudio`
choosing the codec passed to fluent-ffmpeg `audioCodec`. -/
def httpAudioCodec (format : String) : String :=
  if format == "mp3" then "libmp3lame"
  else if format == "aac" then "aac"
  else format

/-! ## Command lines built by the MCP tools -/

/-- The ffmpeg command line built by `resize-video` for one resolution. -/
def resizeCommand (absVideoPath outputPath : String) (r : Resolution) : String :=
  "ffmpeg -i \"" ++ absVideoPath ++ "\" -vf \"scale=" ++
    toString (RESOLUTIONS r).1 ++ ":" ++ toString (RESOLUTIONS r).2 ++
    "\" -c:v libx264 -crf 23 -preset medium -c:a aac -b:a 128k \"" ++
    outputPath ++ "\""

/-- The ffmpeg command line built by `extract-audio`. -/
def extractCommand (absVideoPath outputPath codec : String) : String :=
  "ffmpeg -i \"" ++ absVideoPath ++ "\" -vn -acodec " ++ codec ++
    " \"" ++ outputPath ++ "\""

/-- The ffprobe command line built by `get-video-info`. -/
def probeCommand (absVideoPath : String) : String :=
  "ffprobe -v quiet -print_format json -show_format -show_streams \"" ++
    absVideoPath ++ "\""

/-! ## Output file naming -/

/-- The `resize-video` output file name: `<basename>_<resolution><ext>`,
keeping the extension of the input file. -/
def mcpResizeOutputFilename (absVideoPath : String) (r : Resolution) : String :=
  pathBasenameExt absVideoPath (pathExtname absVideoPath) ++ "_" ++
    r.name ++ pathExtname absVideoPath

/-- The HTTP controller's resize output file name:
`<parsed name>_<resolution>.mp4`, always with extension `.mp4`. -/
def httpResizeOutputFilename (filename resolution : String) : String :=
  filename ++ "_" ++ resolution ++ ".mp4"

/-! ## Registered tools and routes (claim C3) -/

/-- The three media operations the spec speaks about, plus the version
probe the MCP server additionally registers. -/
inductive Operation
  | opResize
  | opExtractAudio
  | opMediaInfo
  | opVersion
deriving DecidableEq, Repr

/-- The tools registered by `server.tool` in src/mcp-ffmpeg.ts. -/
def mcpToolNames : List String :=
  ["get-ffmpeg-version", "resize-video", "extract-audio", "get-video-info"]

/-- The operation each MCP tool performs. -/
def mcpToolOperation (t : String) : Option Operation :=
  if t == "get-ffmpeg-version" then some Operation.opVersion
  else if t == "resize-video" then some Operation.opResize
  else if t == "extract-audio" then some Operation.opExtractAudio
  else if t == "get-video-info" then some Operation.opMediaInfo
  else none

/-- The routes registered by `app.post` in server.js. -/
def httpRoutePaths : List String := ["/api/resize", "/api/extract-audio"]

/-- The operation the controller bound to each HTTP route performs:
`/api/resize` runs `ffmpegController.resizeVideo`, `/api/extract-audio`
runs `ffmpegController.extractAudio`. -/
def httpRouteOperation (r : String) : Option Operation :=
  if r == "/api/resize" then some Operation.opResize
  else if r == "/api/extract-audio" then some Operation.opExtractAudio
  else none

/-- Whether the MCP front-end exposes an operation. -/
def mcpExposes (op : Operation) : Bool :=
  mcpToolNames.any (fun t => mcpToolOperation t == some op)

/-- Whether the HTTP front-end exposes an operation. -/
def httpExposes (op : Operation) : Bool :=
  httpRoutePaths.any (fun r => httpRouteOperation r == some op)

/-! ## The permission gate (`askPermission`) -/

/-- The arguments node-notifier passes to the `notify` callback:
whether an error was reported, the `response` string, and
`metadata?.activationValue` (absent when metadata is missing or has no
activation value). -/
structure NotifierCallback where
  err : Bool
  response : String
  activationValue : Option String
deriving DecidableEq, Repr

/-- `metadata?.activationValue || response`: JavaScript `||` falls through
on `undefined` and on the empty string. -/
def buttonPressed (cb : NotifierCallback) : String :=
  match cb.activationValue with
  | some v => if v ≠ "" then v else cb.response
  | none => cb.response

/-- `askPermission(action)`: first component is the boolean the promise
resolves to, second is whether a notification dialog was shown.
`envDisable` is the value of the `DISABLE_NOTIFICATIONS` environment
variable. -/
def askPermission (envDisable : Option String) (cb : NotifierCallback) :
    Bool × Bool :=
  if envDisable == some "true" then (true, false)
  else if cb.err then (false, true)
  else (buttonPressed cb ≠ "Deny", true)

/-! ## Environment and event trace of the MCP tool handlers -/

/-- Externally visible events a tool handler performs, in program order. -/
inductive McpEvent
  | accessCheck (p : String)
  | writableCheck (d : String)
  | permissionRequest (msg : String)
  | execCall (cmd : String)
deriving DecidableEq, Repr

/-- One MCP tool result: the `isError` flag and the single text content. -/
structure McpToolResult where
  isError : Bool
  text : String
deriving DecidableEq, Repr

/-- The environment a handler runs against: success of `fs.access` per
path, writability per directory, success of the `fs.mkdir` in
`ensureDirectoriesExist`, the boolean `askPermission` resolved to, and
the outcome of `execAsync` per command line (`Except.ok stdout` or
`Except.error message`). `formatVideoInfo` abstracts the JSON parsing
and pretty-printing of the ffprobe output in `get-video-info`
(`Except.error` modelling a thrown exception), which no claim inspects. -/
structure FsEnv where
  cwd : String
  tmpdir : String
  accessOk : String → Bool
  writableOk : String → Bool
  mkdirOk : Bool
  permitted : Bool
  execRun : String → Except String String
  formatVideoInfo : String → Except String String

/-- `ensureDirectoriesExist`: make `<tmpdir>/ffmpeg-output` and return it;
on `mkdir` failure fall back to the OS temp directory itself. -/
def ensureDirectoriesExist (env : FsEnv) : String :=
  if env.mkdirOk then pathJoin env.tmpdir "ffmpeg-output" else env.tmpdir

/-- The output directory of `resize-video` / `extract-audio`: the resolved
`outputDir` argument when given, else `ensureDirectoriesExist`. -/
def mcpOutputDirectory (outputDir : Option String) (env : FsEnv) : String :=
  match outputDir with
  | some d => pathResolve env.cwd d
  | none => ensureDirectoriesExist env

/-! ## The `resize-video` tool -/

/-- The `ResizeResult` record of the `resize-video` tool. -/
structure ResizeResult where
  resolution : Resolution
  outputPath : String
  success : Bool
  error : Option String
deriving DecidableEq, Repr

/-- One iteration of the `for (const resolution of resolutions)` loop:
build the command, run it, record success or the error message. -/
def resizeOne (env : FsEnv) (absVideoPath outputDirectory : String)
    (r : Resolution) : ResizeResult × McpEvent :=
  let outputPath := pathJoin outputDirectory (mcpResizeOutputFilename absVideoPath r)
  let command := resizeCommand absVideoPath outputPath r
  match env.execRun command with
  | Except.ok _ =>
      ({ resolution := r, outputPath := outputPath, success := true,
         error := none }, McpEvent.execCall command)
  | Except.error msg =>
      ({ resolution := r, outputPath := outputPath, success := false,
         error := some msg }, McpEvent.execCall command)

/-- The whole loop, one step per requested resolution, in request order. -/
def mcpResizeSteps (env : FsEnv) (absVideoPath outputDirectory : String)
    (resolutions : List Resolution) : List (ResizeResult × McpEvent) :=
  resolutions.map (resizeOne env absVideoPath outputDirectory)

/-- The permission message of `resize-video`. -/
def resizePermissionMessage (absVideoPath : String)
    (resolutions : List Resolution) : String :=
  "Resize video " ++ pathBasename absVideoPath ++ " to " ++
    joinSep ", " (resolutions.map Resolution.name)

/-- The summary header of the result text. -/
def resizeHeader (total succ fail : Nat) : String :=
  "Processed " ++ toString total ++ " resolutions (" ++ toString succ ++
    " successful, " ++ toString fail ++ " failed)\n\n"

/-- The per-resolution line appended by the `results.forEach` loop. -/
def resizeResultLine (res : ResizeResult) : String :=
  if res.success then
    "✅ " ++ res.resolution.name ++ ": " ++ res.outputPath ++ "\n"
  else
    "❌ " ++ res.resolution.name ++ ": Failed - " ++
      (match res.error with | some e => e | none => "undefined") ++ "\n"

/-- The full result text of a completed `resize-video` run. -/
def resizeReport (results : List ResizeResult) : String :=
  resizeHeader results.length
      (results.filter (fun r => r.success)).length
      (results.length - (results.filter (fun r => r.success)).length) ++
    String.join (results.map resizeResultLine)

/-- The `resize-video` tool handler. -/
def mcpResizeVideo (videoPath : String) (resolutions : List Resolution)
    (outputDir : Option String) (env : FsEnv) :
    McpToolResult × List McpEvent :=
  let absVideoPath := pathResolve env.cwd videoPath
  if env.accessOk absVideoPath then
    let outputDirectory := mcpOutputDirectory outputDir env
    if env.writableOk outputDirectory then
      if env.permitted then
        let steps := mcpResizeSteps env absVideoPath outputDirectory resolutions
        ({ isError := false, text := resizeReport (steps.map Prod.fst) },
         [McpEvent.accessCheck absVideoPath,
          McpEvent.writableCheck outputDirectory,
          McpEvent.permissionRequest
            (resizePermissionMessage absVideoPath resolutions)] ++
           steps.map Prod.snd)
      else
        ({ isError := true, text := "Permission denied by user" },
         [McpEvent.accessCheck absVideoPath,
          McpEvent.writableCheck outputDirectory,
          McpEvent.permissionRequest
            (resizePermissionMessage absVideoPath resolutions)])
    else
      ({ isError := true,
         text := "Error: Output directory " ++ outputDirectory ++
           " does not exist or is not writable" },
       [McpEvent.accessCheck absVideoPath,
        McpEvent.writableCheck outputDirectory])
  else
    ({ isError := true,
       text := "Error: Video file not found at " ++ absVideoPath },
     [McpEvent.accessCheck absVideoPath])

/-! ## The `extract-audio` tool -/

/-- The permission message of `extract-audio`. -/
def extractPermissionMessage (absVideoPath : String)
    (format : AudioFormat) : String :=
  "Extract " ++ format.name ++ " audio from video " ++
    pathBasename absVideoPath

/-- The `extract-audio` output path:
`<outputDirectory>/<basename>.<format>`. -/
def mcpExtractOutputPath (absVideoPath outputDirectory : String)
    (format : AudioFormat) : String :=
  pathJoin outputDirectory
    (pathBasenameExt absVideoPath (pathExtname absVideoPath) ++ "." ++
      format.name)

/-- The `extract-audio` tool handler. -/
def mcpExtractAudio (videoPath : String) (format : AudioFormat)
    (outputDir : Option String) (env : FsEnv) :
    McpToolResult × List McpEvent :=
  let absVideoPath := pathResolve env.cwd videoPath
  if env.accessOk absVideoPath then
    let outputDirectory := mcpOutputDirectory outputDir env
    if env.writableOk outputDirectory then
      if env.permitted then
        let outputPath := mcpExtractOutputPath absVideoPath outputDirectory format
        let command := extractCommand absVideoPath outputPath (mcpAudioCodec format)
        match env.execRun command with
        | Except.ok _ =>
            ({ isError := false,
               text := "Successfully extracted audio to: " ++ outputPath },
             [McpEvent.accessCheck absVideoPath,
              McpEvent.writableCheck outputDirectory,
              McpEvent.permissionRequest
                (extractPermissionMessage absVideoPath format),
              McpEvent.execCall command])
        | Except.error msg =>
            ({ isError := true,
               text := "Error extracting audio: " ++ msg },
             [McpEvent.accessCheck absVideoPath,
              McpEvent.writableCheck outputDirectory,
              McpEvent.permissionRequest
                (extractPermissionMessage absVideoPath format),
              McpEvent.execCall command])
      else
        ({ isError := true, text := "Permission denied by user" },
         [McpEvent.accessCheck absVideoPath,
          McpEvent.writableCheck outputDirectory,
          McpEvent.permissionRequest
            (extractPermissionMessage absVideoPath format)])
    else
      ({ isError := true,
         text := "Error: Output directory " ++ outputDirectory ++
           " does not exist or is not writable" },
       [McpEvent.accessCheck absVideoPath,
        McpEvent.writableCheck outputDirectory])
  else
    ({ isError := true,
       text := "Error: Video file not found at " ++ absVideoPath },
     [McpEvent.accessCheck absVideoPath])

/-! ## The `get-video-info` tool -/

/-- The permission message of `get-video-info`. -/
def infoPermissionMessage (absVideoPath : String) : String :=
  "Analyze video file " ++ pathBasename absVideoPath

/-- The `get-video-info` tool handler. -/
def mcpGetVideoInfo (videoPath : String) (env : FsEnv) :
    McpToolResult × List McpEvent :=
  let absVideoPath := pathResolve env.cwd videoPath
  if env.accessOk absVideoPath then
    if env.permitted then
      let command := probeCommand absVideoPath
      match env.execRun command with
      | Except.error msg =>
          ({ isError := true,
             text := "Error getting video information: " ++ msg },
           [McpEvent.accessCheck absVideoPath,
            McpEvent.permissionRequest (infoPermissionMessage absVideoPath),
            McpEvent.execCall command])
      | Except.ok stdout =>
          match env.formatVideoInfo stdout with
          | Except.ok info =>
              ({ isError := false,
                 text := "Video Information for: " ++
                   pathBasename absVideoPath ++ "\n\n" ++ info },
               [McpEvent.accessCheck absVideoPath,
                McpEvent.permissionRequest (infoPermissionMessage absVideoPath),
                McpEvent.execCall command])
          | Except.error msg =>
              ({ isError := true,
                 text := "Error getting video information: " ++ msg },
               [McpEvent.accessCheck absVideoPath,
                McpEvent.permissionRequest (infoPermissionMessage absVideoPath),
                McpEvent.execCall command])
    else
      ({ isError := true, text := "Permission denied by user" },
       [McpEvent.accessCheck absVideoPath,
        McpEvent.permissionRequest (infoPermissionMessage absVideoPath)])
  else
    ({ isError := true,
       text := "Error: Video file not found at " ++ absVideoPath },
     [McpEvent.accessCheck absVideoPath])

/-! ## Trace observations -/

/-- The command lines of the exec events of a trace, in order. -/
def execCommands (tr : List McpEvent) : List String :=
  tr.filterMap (fun e =>
    match e with
    | McpEvent.execCall c => some c
    | _ => none)

/-- No exec event occurs before the first permission request. -/
def noExecBeforePermission : List McpEvent → Bool
  | [] => true
  | McpEvent.execCall _ :: _ => false
  | McpEvent.permissionRequest _ :: _ => true
  | _ :: rest => noExecBeforePermission rest

/-! ## The HTTP controller (controllers/ffmpegController.js) -/

/-- `Object.keys(RESOLUTIONS)` of the controller, in declaration order. -/
def RESOLUTION_KEYS : List String := ["360p", "480p", "720p", "1080p"]

/-- The `validFormats` list of the controller's `extractAudio`. -/
def validFormats : List String := ["mp3", "aac", "wav", "ogg"]

/-- An entry of the `files` array of a 200 response. -/
structure OutputFile where
  resolution : String
  filename : String
  urlPath : String
deriving DecidableEq, Repr

/-- The HTTP responses the controller can produce. -/
inductive HttpResp
  | badRequest (error : String) (validOptions : List String)
  | okFiles (message : String) (files : List OutputFile)
  | okAudio (message format filename urlPath : String)
  | serverError (error : String)
deriving DecidableEq, Repr

/-- Externally visible events of an HTTP handler run: the start of an
ffmpeg job for a resolution or format, the settling of such a job, and the
sending of a response with a status code. -/
inductive HttpEvent
  | jobStart (key : String)
  | jobSettled (key : String)
  | respond (status : Nat)
deriving DecidableEq, Repr

/-- The environment of an HTTP handler run: the outcome of the
fluent-ffmpeg job per resolution (or format) key. -/
structure HttpEnv where
  jobOutcome : String → Except String Unit

/-- The `validResolutions` filter of the controller's `resizeVideo`:
the requested resolutions (all of them when the body field is absent)
restricted to the keys of the resolution table. -/
def httpValidResolutions (resolutionsField : Option (List String)) :
    List String :=
  (resolutionsField.getD RESOLUTION_KEYS).filter
    (fun r => RESOLUTION_KEYS.contains r)

/-- The controller's `resizeVideo` handler, as a pure function of the
upload (`hasFile`, the stored `filename`) and of the parsed
`resolutions` body field (`none` when the field is absent). All jobs are
created by a single `map` before any is awaited; `Promise.all` then waits
for every job when all fulfil (settle events, listed here in request
order as one admissible order), while a rejection makes it reject and the
`catch` answer 500 without waiting for the remaining jobs. -/
def httpResizeVideo (hasFile : Bool) (fileName : String)
    (resolutionsField : Option (List String)) (env : HttpEnv) :
    HttpResp × List HttpEvent :=
  if hasFile then
    let filename := parseName fileName
    let validResolutions := httpValidResolutions resolutionsField
    if validResolutions.isEmpty then
      (HttpResp.badRequest "No valid resolutions specified" RESOLUTION_KEYS,
       [HttpEvent.respond 400])
    else
      let starts := validResolutions.map HttpEvent.jobStart
      if validResolutions.all (fun r => (env.jobOutcome r).isOk) then
        let outputFiles := validResolutions.map (fun r =>
          { resolution := r,
            filename := httpResizeOutputFilename filename r,
            urlPath := "/output/" ++ httpResizeOutputFilename filename r })
        (HttpResp.okFiles "Video processing completed" outputFiles,
         starts ++ validResolutions.map HttpEvent.jobSettled ++
           [HttpEvent.respond 200])
      else
        let firstError := (validResolutions.filterMap (fun r =>
          match env.jobOutcome r with
          | Except.error e => some e
          | Except.ok _ => none)).headD "Error processing video"
        (HttpResp.serverError firstError, starts ++ [HttpEvent.respond 500])
  else
    (HttpResp.badRequest "No video file uploaded" [], [HttpEvent.respond 400])

/-- The controller's `extractAudio` handler. The returned promise rejects
when the ffmpeg job errors (the handler itself sends no response then),
modelled as `Except.error`. -/
def httpExtractAudio (hasFile : Bool) (fileName : String)
    (formatField : Option String) (env : HttpEnv) :
    Except String (HttpResp × List HttpEvent) :=
  if hasFile then
    let filename := parseName fileName
    let format := formatField.getD "mp3"
    if validFormats.contains format then
      let outputFilename := filename ++ "." ++ format
      match env.jobOutcome format with
      | Except.ok _ =>
          Except.ok
            (HttpResp.okAudio "Audio extraction completed" format
               outputFilename ("/output/" ++ outputFilename),
             [HttpEvent.jobStart format, HttpEvent.jobSettled format,
              HttpEvent.respond 200])
      | Except.error e => Except.error e
    else
      Except.ok
        (HttpResp.badRequest "Invalid audio format" validFormats,
         [HttpEvent.respond 400])
  else
    Except.ok
      (HttpResp.badRequest "No video file uploaded" [],
       [HttpEvent.respond 400])

/-- The resolution keys whose jobs a trace starts, in order. -/
def jobStarts (tr : List HttpEvent) : List String :=
  tr.filterMap (fun e =>
    match e with
    | HttpEvent.jobStart k => some k
    | _ => none)

/-- The `results` list a completed `resize-video` run reports on. -/
def mcpResizeResults (v : String) (rs : List Resolution)
    (d : Option String) (env : FsEnv) : List ResizeResult :=
  (mcpResizeSteps env (pathResolve env.cwd v)
    (mcpOutputDirectory d env) rs).map Prod.fst

/-! ## Concrete environments used by the witnesses -/

/-- HTTP environment where every ffmpeg job fulfils. -/
def httpEnvOk : HttpEnv where
  jobOutcome := fun _ => Except.ok ()

/-- HTTP environment where every ffmpeg job rejects. -/
def httpEnvFail : HttpEnv where
  jobOutcome := fun _ => Except.error "boom"

/-- Environment where every check passes and every command succeeds. -/
def envAllOk : FsEnv where
  cwd := "/work"
  tmpdir := "/tmp"
  accessOk := fun _ => true
  writableOk := fun _ => true
  mkdirOk := true
  permitted := true
  execRun := fun _ => Except.ok ""
  formatVideoInfo := fun s => Except.ok s

/-- Environment where the permission gate denies. -/
def envDenied : FsEnv where
  cwd := "/work"
  tmpdir := "/tmp"
  accessOk := fun _ => true
  writableOk := fun _ => true
  mkdirOk := true
  permitted := false
  execRun := fun _ => Except.ok ""
  formatVideoInfo := fun s => Except.ok s

/-- Environment where no file is accessible. -/
def envNoFile : FsEnv where
  cwd := "/work"
  tmpdir := "/tmp"
  accessOk := fun _ => false
  writableOk := fun _ => true
  mkdirOk := true
  permitted := true
  execRun := fun _ => Except.ok ""
  formatVideoInfo := fun s => Except.ok s

/-- Environment where files exist but no directory is writable. -/
def envNoDir : FsEnv where
  cwd := "/work"
  tmpdir := "/tmp"
  accessOk := fun _ => true
  writableOk := fun _ => false
  mkdirOk := true
  permitted := true
  execRun := fun _ => Except.ok ""
  formatVideoInfo := fun s => Except.ok s

/-- Environment where every ffmpeg run fails, and the `fs.mkdir` of
`ensureDirectoriesExist` fails as well. -/
def envExecFails : FsEnv where
  cwd := "/work"
  tmpdir := "/tmp"
  accessOk := fun _ => true
  writableOk := fun _ => true
  mkdirOk := false
  permitted := true
  execRun := fun _ => Except.error "boom"
  formatVideoInfo := fun s => Except.ok s

/-! ## Helper lemmas -/

/-- The event of one resize step is the exec of its built command. -/
theorem resizeOne_snd (env : FsEnv) (a o : String) (r : Resolution) :
    (resizeOne env a o r).2 =
      McpEvent.execCall
        (resizeCommand a (pathJoin o (mcpResizeOutputFilename a r)) r) := by
  unfold resizeOne
  dsimp only
  cases h : env.execRun (resizeCommand a (pathJoin o (mcpResizeOutputFilename a r)) r) <;>
    simp [h]

/-- The result of one resize step records its own resolution. -/
theorem resizeOne_resolution (env : FsEnv) (a o : String) (r : Resolution) :
    (resizeOne env a o r).1.resolution = r := by
  unfold resizeOne
  dsimp only
  cases h : env.execRun (resizeCommand a (pathJoin o (mcpResizeOutputFilename a r)) r) <;>
    simp [h]

/-- The exec commands of the loop trace, one per resolution in order. -/
theorem execCommands_resizeSteps (env : FsEnv) (a o : String)
    (rs : List Resolution) :
    execCommands ((mcpResizeSteps env a o rs).map Prod.snd) =
      rs.map (fun r =>
        resizeCommand a (pathJoin o (mcpResizeOutputFilename a r)) r) := by
  induction rs with
  | nil => rfl
  | cons r rest ih =>
      simp only [mcpResizeSteps, List.map_cons, execCommands, resizeOne_snd,
        List.filterMap_cons] at *
      exact congrArg _ ih

/-! ## Branch shape lemmas for the three gated tools -/

theorem mcpResizeVideo_notFound (v : String) (rs : List Resolution)
    (d : Option String) (env : FsEnv)
    (h : env.accessOk (pathResolve env.cwd v) = false) :
    mcpResizeVideo v rs d env =
      ({ isError := true,
         text := "Error: Video file not found at " ++ pathResolve env.cwd v },
       [McpEvent.accessCheck (pathResolve env.cwd v)]) := by
  simp [mcpResizeVideo, h]

theorem mcpResizeVideo_dirError (v : String) (rs : List Resolution)
    (d : Option String) (env : FsEnv)
    (h1 : env.accessOk (pathResolve env.cwd v) = true)
    (h2 : env.writableOk (mcpOutputDirectory d env) = false) :
    mcpResizeVideo v rs d env =
      ({ isError := true,
         text := "Error: Output directory " ++ mcpOutputDirectory d env ++
           " does not exist or is not writable" },
       [McpEvent.accessCheck (pathResolve env.cwd v),
        McpEvent.writableCheck (mcpOutputDirectory d env)]) := by
  simp [mcpResizeVideo, h1, h2]

theorem mcpResizeVideo_denied (v : String) (rs : List Resolution)
    (d : Option String) (env : FsEnv)
    (h1 : env.accessOk (pathResolve env.cwd v) = true)
    (h2 : env.writableOk (mcpOutputDirectory d env) = true)
    (h3 : env.permitted = false) :
    mcpResizeVideo v rs d env =
      ({ isError := true, text := "Permission denied by user" },
       [McpEvent.accessCheck (pathResolve env.cwd v),
        McpEvent.writableCheck (mcpOutputDirectory d env),
        McpEvent.permissionRequest
          (resizePermissionMessage (pathResolve env.cwd v) rs)]) := by
  simp [mcpResizeVideo, h1, h2, h3]

theorem mcpResizeVideo_proceed (v : String) (rs : List Resolution)
    (d : Option String) (env : FsEnv)
    (h1 : env.accessOk (pathResolve env.cwd v) = true)
    (h2 : env.writableOk (mcpOutputDirectory d env) = true)
    (h3 : env.permitted = true) :
    mcpResizeVideo v rs d env =
      ({ isError := false,
         text := resizeReport ((mcpResizeSteps env (pathResolve env.cwd v)
           (mcpOutputDirectory d env) rs).map Prod.fst) },
       [McpEvent.accessCheck (pathResolve env.cwd v),
        McpEvent.writableCheck (mcpOutputDirectory d env),
        McpEvent.permissionRequest
          (resizePermissionMessage (pathResolve env.cwd v) rs)] ++
         (mcpResizeSteps env (pathResolve env.cwd v)
           (mcpOutputDirectory d env) rs).map Prod.snd) := by
  simp [mcpResizeVideo, h1, h2, h3]

theorem mcpExtractAudio_notFound (v : String) (f : AudioFormat)
    (d : Option String) (env : FsEnv)
    (h : env.accessOk (pathResolve env.cwd v) = false) :
    mcpExtractAudio v f d env =
      ({ isError := true,
         text := "Error: Video file not found at " ++ pathResolve env.cwd v },
       [McpEvent.accessCheck (pathResolve env.cwd v)]) := by
  simp [mcpExtractAudio, h]

theorem mcpExtractAudio_dirError (v : String) (f : AudioFormat)
    (d : Option String) (env : FsEnv)
    (h1 : env.accessOk (pathResolve env.cwd v) = true)
    (h2 : env.writableOk (mcpOutputDirectory d env) = false) :
    mcpExtractAudio v f d env =
      ({ isError := true,
         text := "Error: Output directory " ++ mcpOutputDirectory d env ++
           " does not exist or is not writable" },
       [McpEvent.accessCheck (pathResolve env.cwd v),
        McpEvent.writableCheck (mcpOutputDirectory d env)]) := by
  simp [mcpExtractAudio, h1, h2]

theorem mcpExtractAudio_denied (v : String) (f : AudioFormat)
    (d : Option String) (env : FsEnv)
    (h1 : env.accessOk (pathResolve env.cwd v) = true)
    (h2 : env.writableOk (mcpOutputDirectory d env) = true)
    (h3 : env.permitted = false) :
    mcpExtractAudio v f d env =
      ({ isError := true, text := "Permission denied by user" },
       [McpEvent.accessCheck (pathResolve env.cwd v),
        McpEvent.writableCheck (mcpOutputDirectory d env),
        McpEvent.permissionRequest
          (extractPermissionMessage (pathResolve env.cwd v) f)]) := by
  simp [mcpExtractAudio, h1, h2, h3]

theorem mcpExtractAudio_trace_proceed (v : String) (f : AudioFormat)
    (d : Option String) (env : FsEnv)
    (h1 : env.accessOk (pathResolve env.cwd v) = true)
    (h2 : env.writableOk (mcpOutputDirectory d env) = true)
    (h3 : env.permitted = true) :
    (mcpExtractAudio v f d env).2 =
      [McpEvent.accessCheck (pathResolve env.cwd v),
       McpEvent.writableCheck (mcpOutputDirectory d env),
       McpEvent.permissionRequest
         (extractPermissionMessage (pathResolve env.cwd v) f),
       McpEvent.execCall (extractCommand (pathResolve env.cwd v)
         (mcpExtractOutputPath (pathResolve env.cwd v)
           (mcpOutputDirectory d env) f) (mcpAudioCodec f))] := by
  simp only [mcpExtractAudio, h1, h2, h3, if_true]
  cases henv : env.execRun (extractCommand (pathResolve env.cwd v)
      (mcpExtractOutputPath (pathResolve env.cwd v)
        (mcpOutputDirectory d env) f) (mcpAudioCodec f)) <;>
    simp [henv]

theorem mcpGetVideoInfo_notFound (v : String) (env : FsEnv)
    (h : env.accessOk (pathResolve env.cwd v) = false) :
    mcpGetVideoInfo v env =
      ({ isError := true,
         text := "Error: Video file not found at " ++ pathResolve env.cwd v },
       [McpEvent.accessCheck (pathResolve env.cwd v)]) := by
  simp [mcpGetVideoInfo, h]

theorem mcpGetVideoInfo_denied (v : String) (env : FsEnv)
    (h1 : env.accessOk (pathResolve env.cwd v) = true)
    (h3 : env.permitted = false) :
    mcpGetVideoInfo v env =
      ({ isError := true, text := "Permission denied by user" },
       [McpEvent.accessCheck (pathResolve env.cwd v),
        McpEvent.permissionRequest
          (infoPermissionMessage (pathResolve env.cwd v))]) := by
  simp [mcpGetVideoInfo, h1, h3]

theorem mcpGetVideoInfo_trace_proceed (v : String) (env : FsEnv)
    (h1 : env.accessOk (pathResolve env.cwd v) = true)
    (h3 : env.permitted = true) :
    (mcpGetVideoInfo v env).2 =
      [McpEvent.accessCheck (pathResolve env.cwd v),
       McpEvent.permissionRequest (infoPermissionMessage (pathResolve env.cwd v)),
       McpEvent.execCall (probeCommand (pathResolve env.cwd v))] := by
  simp only [mcpGetVideoInfo, h1, h3, if_true]
  cases henv : env.execRun (probeCommand (pathResolve env.cwd v)) with
  | error msg => simp [henv]
  | ok stdout => cases hfmt : env.formatVideoInfo stdout <;> simp [henv, hfmt]

/-! ## Claim C2 -/

/-- C2: every transformation is delegated through a constructed command
line: when the checks pass and permission is granted, `resize-video`
executes, per requested resolution and in order, exactly
`ffmpeg -i <input> -vf "scale=<w>:<h>" -c:v libx264 -crf 23 -preset
medium -c:a aac -b:a 128k <output>` with `(w, h)` drawn from the fixed
table 360p=640x360, 480p=854x480, 720p=1280x720, 1080p=1920x1080, and
`extract-audio` executes exactly `ffmpeg -i <input> -vn -acodec <codec>
<output>` with the codec a function of the requested format alone
(mp3=libmp3lame, aac=aac, wav=pcm_s16le, ogg=libvorbis). -/
theorem claim_C2_commands (v : String) (rs : List Resolution)
    (d : Option String) (env : FsEnv) (f : AudioFormat) :
    (RESOLUTIONS Resolution.r360p = (640, 360) ∧
     RESOLUTIONS Resolution.r480p = (854, 480) ∧
     RESOLUTIONS Resolution.r720p = (1280, 720) ∧
     RESOLUTIONS Resolution.r1080p = (1920, 1080)) ∧
    (mcpAudioCodec AudioFormat.mp3 = "libmp3lame" ∧
     mcpAudioCodec AudioFormat.aac = "aac" ∧
     mcpAudioCodec AudioFormat.wav = "pcm_s16le" ∧
     mcpAudioCodec AudioFormat.ogg = "libvorbis") ∧
    (env.accessOk (pathResolve env.cwd v) = true →
     env.writableOk (mcpOutputDirectory d env) = true →
     env.permitted = true →
     execCommands (mcpResizeVideo v rs d env).2 =
       rs.map (fun r =>
         "ffmpeg -i \"" ++ pathResolve env.cwd v ++ "\" -vf \"scale=" ++
           toString (RESOLUTIONS r).1 ++ ":" ++ toString (RESOLUTIONS r).2 ++
           "\" -c:v libx264 -crf 23 -preset medium -c:a aac -b:a 128k \"" ++
           pathJoin (mcpOutputDirectory d env)
             (mcpResizeOutputFilename (pathResolve env.cwd v) r) ++ "\"")) ∧
    (env.accessOk (pathResolve env.cwd v) = true →
     env.writableOk (mcpOutputDirectory d env) = true →
     env.permitted = true →
     execCommands (mcpExtractAudio v f d env).2 =
       ["ffmpeg -i \"" ++ pathResolve env.cwd v ++ "\" -vn -acodec " ++
          mcpAudioCodec f ++ " \"" ++
          mcpExtractOutputPath (pathResolve env.cwd v)
            (mcpOutputDirectory d env) f ++ "\""]) := by
  refine ⟨⟨rfl, rfl, rfl, rfl⟩, ⟨rfl, rfl, rfl, rfl⟩, ?_, ?_⟩
  · intro h1 h2 h3
    simp only [mcpResizeVideo, h1, h2, h3, if_true]
    simp only [execCommands, List.filterMap_append, List.filterMap_cons,
      List.filterMap_nil, List.nil_append]
    have hsteps := execCommands_resizeSteps env (pathResolve env.cwd v)
      (mcpOutputDirectory d env) rs
    simp only [execCommands] at hsteps
    rw [hsteps]
    rfl
  · intro h1 h2 h3
    simp only [mcpExtractAudio, h1, h2, h3, if_true]
    cases henv : env.execRun (extractCommand (pathResolve env.cwd v)
        (mcpExtractOutputPath (pathResolve env.cwd v)
          (mcpOutputDirectory d env) f) (mcpAudioCodec f)) <;>
      simp [henv, execCommands, extractCommand]

/-- Witness for C2 at a concrete run. -/
theorem claim_C2_commands_witness :
    execCommands (mcpResizeVideo "clip.mp4" [Resolution.r720p] none envAllOk).2 =
      ["ffmpeg -i \"/work/clip.mp4\" -vf \"scale=1280:720\" -c:v libx264 -crf 23 -preset medium -c:a aac -b:a 128k \"/tmp/ffmpeg-output/clip_720p.mp4\""] ∧
    execCommands (mcpExtractAudio "clip.mp4" AudioFormat.wav none envAllOk).2 =
      ["ffmpeg -i \"/work/clip.mp4\" -vn -acodec pcm_s16le \"/tmp/ffmpeg-output/clip.wav\""] := by
  have h := claim_C2_commands "clip.mp4" [Resolution.r720p] none envAllOk
    AudioFormat.wav
  exact ⟨(h.2.2.1 rfl rfl rfl).trans (by decide),
         (h.2.2.2 rfl rfl rfl).trans (by decide)⟩

/-! ## Claim C1 -/

/-- C1: in every run of `resize-video`, `extract-audio` and
`get-video-info`, no external command is executed before the permission
gate is consulted; if the gate resolved false then no external command
is executed at all; and when the gate denies after the input checks
passed, each tool returns the error result with text
"Permission denied by user". -/
theorem claim_C1_permission_gate (v : String) (rs : List Resolution)
    (f : AudioFormat) (d : Option String) (env : FsEnv) :
    (noExecBeforePermission (mcpResizeVideo v rs d env).2 = true ∧
     noExecBeforePermission (mcpExtractAudio v f d env).2 = true ∧
     noExecBeforePermission (mcpGetVideoInfo v env).2 = true) ∧
    (env.permitted = false →
      execCommands (mcpResizeVideo v rs d env).2 = [] ∧
      execCommands (mcpExtractAudio v f d env).2 = [] ∧
      execCommands (mcpGetVideoInfo v env).2 = []) ∧
    (env.accessOk (pathResolve env.cwd v) = true →
     env.writableOk (mcpOutputDirectory d env) = true →
     env.permitted = false →
      (mcpResizeVideo v rs d env).1 =
        { isError := true, text := "Permission denied by user" } ∧
      (mcpExtractAudio v f d env).1 =
        { isError := true, text := "Permission denied by user" } ∧
      (mcpGetVideoInfo v env).1 =
        { isError := true, text := "Permission denied by user" }) := by
  by_cases h1 : env.accessOk (pathResolve env.cwd v) = true
  · by_cases h2 : env.writableOk (mcpOutputDirectory d env) = true
    · by_cases h3 : env.permitted = true
      · refine ⟨⟨?_, ?_, ?_⟩, fun hcontra => absurd h3 (by simp [hcontra]),
          fun _ _ hcontra => absurd h3 (by simp [hcontra])⟩
        · rw [mcpResizeVideo_proceed v rs d env h1 h2 h3]
          simp [noExecBeforePermission]
        · rw [mcpExtractAudio_trace_proceed v f d env h1 h2 h3]
          simp [noExecBeforePermission]
        · rw [mcpGetVideoInfo_trace_proceed v env h1 h3]
          simp [noExecBeforePermission]
      · have h3f : env.permitted = false := by
          cases hp : env.permitted
          · rfl
          · exact absurd hp h3
        rw [mcpResizeVideo_denied v rs d env h1 h2 h3f,
          mcpExtractAudio_denied v f d env h1 h2 h3f,
          mcpGetVideoInfo_denied v env h1 h3f]
        exact ⟨⟨rfl, rfl, rfl⟩, fun _ => ⟨rfl, rfl, rfl⟩,
          fun _ _ _ => ⟨rfl, rfl, rfl⟩⟩
    · have h2f : env.writableOk (mcpOutputDirectory d env) = false := by
        cases hp : env.writableOk (mcpOutputDirectory d env)
        · rfl
        · exact absurd hp h2
      rw [mcpResizeVideo_dirError v rs d env h1 h2f,
        mcpExtractAudio_dirError v f d env h1 h2f]
      refine ⟨⟨rfl, rfl, ?_⟩, fun hperm => ⟨rfl, rfl, ?_⟩,
        fun _ hcontra => absurd hcontra (by simp [h2f])⟩
      · by_cases h3 : env.permitted = true
        · rw [mcpGetVideoInfo_trace_proceed v env h1 h3]
          simp [noExecBeforePermission]
        · have h3f : env.permitted = false := by
            cases hp : env.permitted
            · rfl
            · exact absurd hp h3
          rw [mcpGetVideoInfo_denied v env h1 h3f]
          rfl
      · rw [mcpGetVideoInfo_denied v env h1 hperm]
        rfl
  · have h1f : env.accessOk (pathResolve env.cwd v) = false := by
      cases hp : env.accessOk (pathResolve env.cwd v)
      · rfl
      · exact absurd hp h1
    rw [mcpResizeVideo_notFound v rs d env h1f,
      mcpExtractAudio_notFound v f d env h1f,
      mcpGetVideoInfo_notFound v env h1f]
    exact ⟨⟨rfl, rfl, rfl⟩, fun _ => ⟨rfl, rfl, rfl⟩,
      fun hcontra _ _ => absurd hcontra (by simp [h1f])⟩

/-- Witness for C1: a run where the gate denies. -/
theorem claim_C1_permission_gate_witness :
    (mcpResizeVideo "clip.mp4" [Resolution.r360p] none envDenied).1 =
      { isError := true, text := "Permission denied by user" } ∧
    execCommands (mcpResizeVideo "clip.mp4" [Resolution.r360p] none envDenied).2 = [] ∧
    (mcpGetVideoInfo "clip.mp4" envDenied).1 =
      { isError := true, text := "Permission denied by user" } := by
  have h := claim_C1_permission_gate "clip.mp4" [Resolution.r360p]
    AudioFormat.mp3 none envDenied
  exact ⟨(h.2.2 rfl rfl rfl).1, (h.2.1 rfl).1, (h.2.2 rfl rfl rfl).2.2⟩

/-! ## Claim C4 -/

/-- C4: `resize-video` and `extract-audio` validate in a fixed order:
an inaccessible input makes the tool return the file-not-found error with
a trace of just the access check (so no output-directory check, no
permission request, no ffmpeg run), and an accessible input with an
unwritable output directory makes it return the directory error with a
trace of just the two checks (so no permission request and no ffmpeg
run). -/
theorem claim_C4_validation_order (v : String) (rs : List Resolution)
    (f : AudioFormat) (d : Option String) (env : FsEnv) :
    (env.accessOk (pathResolve env.cwd v) = false →
      mcpResizeVideo v rs d env =
        ({ isError := true,
           text := "Error: Video file not found at " ++ pathResolve env.cwd v },
         [McpEvent.accessCheck (pathResolve env.cwd v)]) ∧
      mcpExtractAudio v f d env =
        ({ isError := true,
           text := "Error: Video file not found at " ++ pathResolve env.cwd v },
         [McpEvent.accessCheck (pathResolve env.cwd v)])) ∧
    (env.accessOk (pathResolve env.cwd v) = true →
     env.writableOk (mcpOutputDirectory d env) = false →
      mcpResizeVideo v rs d env =
        ({ isError := true,
           text := "Error: Output directory " ++ mcpOutputDirectory d env ++
             " does not exist or is not writable" },
         [McpEvent.accessCheck (pathResolve env.cwd v),
          McpEvent.writableCheck (mcpOutputDirectory d env)]) ∧
      mcpExtractAudio v f d env =
        ({ isError := true,
           text := "Error: Output directory " ++ mcpOutputDirectory d env ++
             " does not exist or is not writable" },
         [McpEvent.accessCheck (pathResolve env.cwd v),
          McpEvent.writableCheck (mcpOutputDirectory d env)])) := by
  exact ⟨fun h =>
      ⟨mcpResizeVideo_notFound v rs d env h,
       mcpExtractAudio_notFound v f d env h⟩,
    fun h1 h2 =>
      ⟨mcpResizeVideo_dirError v rs d env h1 h2,
       mcpExtractAudio_dirError v f d env h1 h2⟩⟩

/-- Witness for C4: the two failure shapes at concrete runs. -/
theorem claim_C4_validation_order_witness :
    mcpResizeVideo "clip.mp4" [Resolution.r360p] none envNoFile =
      ({ isError := true,
         text := "Error: Video file not found at /work/clip.mp4" },
       [McpEvent.accessCheck "/work/clip.mp4"]) ∧
    mcpExtractAudio "clip.mp4" AudioFormat.mp3 none envNoDir =
      ({ isError := true,
         text := "Error: Output directory /tmp/ffmpeg-output does not exist or is not writable" },
       [McpEvent.accessCheck "/work/clip.mp4",
        McpEvent.writableCheck "/tmp/ffmpeg-output"]) := by
  have ha := claim_C4_validation_order "clip.mp4" [Resolution.r360p]
    AudioFormat.mp3 none envNoFile
  have hb := claim_C4_validation_order "clip.mp4" [Resolution.r360p]
    AudioFormat.mp3 none envNoDir
  exact ⟨((ha.1 rfl).1).trans (by decide), ((hb.2 rfl rfl).2).trans (by decide)⟩

/-! ## Claim C3 -/

/-- C3 counterexample: the HTTP front-end registers only `/api/resize`
and `/api/extract-audio`; no route reports media metadata, so the two
front-ends do not both expose all three operations. -/
theorem claim_C3_counterexample :
    httpRoutePaths = ["/api/resize", "/api/extract-audio"] ∧
    httpExposes Operation.opMediaInfo = false ∧
    mcpExposes Operation.opMediaInfo = true := by decide

/-- C3 (amended): the MCP server exposes all three operations through
its registered tools; the HTTP API exposes only resize and extract-audio
through its registered routes, and no media-metadata operation. -/
theorem claim_C3_exposure :
    (mcpExposes Operation.opResize = true ∧
     mcpExposes Operation.opExtractAudio = true ∧
     mcpExposes Operation.opMediaInfo = true) ∧
    (httpExposes Operation.opResize = true ∧
     httpExposes Operation.opExtractAudio = true) ∧
    httpExposes Operation.opMediaInfo = false := by decide

/-! ## Claim C6 -/

/-- C6 counterexample: for format `wav` the MCP tool selects codec
`pcm_s16le` while the HTTP controller passes `wav`; and for the same
basename `clip` with input extension `.mkv` the MCP resize output is
`clip_720p.mkv` while the HTTP resize output is `clip_720p.mp4`, so the
two front-ends agree neither on every codec nor on the extension rule. -/
theorem claim_C6_counterexample :
    mcpAudioCodec AudioFormat.wav = "pcm_s16le" ∧
    httpAudioCodec "wav" = "wav" ∧
    mcpAudioCodec AudioFormat.wav ≠ httpAudioCodec "wav" ∧
    mcpResizeOutputFilename "/videos/clip.mkv" Resolution.r720p = "clip_720p.mkv" ∧
    httpResizeOutputFilename (parseName "clip.mkv") "720p" = "clip_720p.mp4" ∧
    mcpResizeOutputFilename "/videos/clip.mkv" Resolution.r720p ≠
      httpResizeOutputFilename (parseName "clip.mkv") "720p" := by decide

/-- C6 (amended): the front-ends select the same codec for mp3 and aac
but differ for wav (pcm_s16le vs wav) and ogg (libvorbis vs ogg); both
name resize outputs `<basename>_<resolution>`, but the MCP tool keeps
the input file's extension while the HTTP controller always appends
`.mp4`, so the names agree exactly when the input extension is `.mp4`. -/
theorem claim_C6_frontends :
    mcpAudioCodec AudioFormat.mp3 = httpAudioCodec "mp3" ∧
    mcpAudioCodec AudioFormat.aac = httpAudioCodec "aac" ∧
    mcpAudioCodec AudioFormat.wav = "pcm_s16le" ∧
    httpAudioCodec "wav" = "wav" ∧
    mcpAudioCodec AudioFormat.ogg = "libvorbis" ∧
    httpAudioCodec "ogg" = "ogg" ∧
    (∀ (p : String) (r : Resolution),
      mcpResizeOutputFilename p r =
        pathBasenameExt p (pathExtname p) ++ "_" ++ r.name ++ pathExtname p) ∧
    (∀ (n rk : String),
      httpResizeOutputFilename n rk = n ++ "_" ++ rk ++ ".mp4") ∧
    mcpResizeOutputFilename "/videos/clip.mp4" Resolution.r360p = "clip_360p.mp4" ∧
    httpResizeOutputFilename (parseName "clip.mp4") "360p" = "clip_360p.mp4" ∧
    mcpResizeOutputFilename "/videos/clip.mkv" Resolution.r360p = "clip_360p.mkv" ∧
    httpResizeOutputFilename (parseName "clip.mkv") "360p" = "clip_360p.mp4" := by
  refine ⟨by decide, by decide, by decide, by decide, by decide, by decide,
    fun p r => rfl, fun n rk => rfl, by decide, by decide, by decide, by decide⟩

/-! ## Claim C5 -/

/-- C5: the permission gate is optional: when `DISABLE_NOTIFICATIONS`
equals "true" `askPermission` resolves true and shows no dialog, and
each gated tool then behaves exactly as with an approving user; when it
is not "true" a dialog is shown (the promise settles only through its
callback) and an error reported by the notifier resolves the gate to
false. -/
theorem claim_C5_gate_optional (ed : Option String) (cb : NotifierCallback)
    (v : String) (rs : List Resolution) (f : AudioFormat)
    (d : Option String) (env : FsEnv) :
    (ed = some "true" → askPermission ed cb = (true, false)) ∧
    (ed ≠ some "true" →
      (askPermission ed cb).2 = true ∧
      (cb.err = true → (askPermission ed cb).1 = false)) ∧
    mcpResizeVideo v rs d
        { env with permitted := (askPermission (some "true") cb).1 } =
      mcpResizeVideo v rs d { env with permitted := true } ∧
    mcpExtractAudio v f d
        { env with permitted := (askPermission (some "true") cb).1 } =
      mcpExtractAudio v f d { env with permitted := true } ∧
    mcpGetVideoInfo v
        { env with permitted := (askPermission (some "true") cb).1 } =
      mcpGetVideoInfo v { env with permitted := true } := by
  have hp : (askPermission (some "true") cb).1 = true := by
    simp [askPermission]
  refine ⟨fun h => ?_, fun h => ?_, by rw [hp], by rw [hp], by rw [hp]⟩
  · subst h
    simp [askPermission]
  · have hbeq : (ed == some "true") = false := by
      cases hb : ed == some "true"
      · rfl
      · exact absurd (eq_of_beq hb) h
    refine ⟨?_, fun herr => ?_⟩
    · cases hcb : cb.err <;> simp [askPermission, hbeq, hcb]
    · simp [askPermission, hbeq, herr]

/-- Witness for C5 at concrete gate inputs. -/
theorem claim_C5_gate_optional_witness :
    askPermission (some "true") ⟨true, "Deny", none⟩ = (true, false) ∧
    (askPermission none ⟨true, "Allow", none⟩).2 = true ∧
    (askPermission none ⟨true, "Allow", none⟩).1 = false ∧
    mcpGetVideoInfo "clip.mp4"
        { envAllOk with
          permitted := (askPermission (some "true") ⟨false, "Allow", none⟩).1 } =
      mcpGetVideoInfo "clip.mp4" { envAllOk with permitted := true } := by
  have hA := claim_C5_gate_optional (some "true") ⟨true, "Deny", none⟩
    "clip.mp4" [Resolution.r360p] AudioFormat.mp3 none envAllOk
  have hB := claim_C5_gate_optional none ⟨true, "Allow", none⟩
    "clip.mp4" [Resolution.r360p] AudioFormat.mp3 none envAllOk
  have hC := claim_C5_gate_optional (some "true") ⟨false, "Allow", none⟩
    "clip.mp4" [Resolution.r360p] AudioFormat.mp3 none envAllOk
  exact ⟨hA.1 rfl, (hB.2.1 (by decide)).1, (hB.2.1 (by decide)).2 rfl,
    hC.2.2.2.2⟩

/-! ## Claim C8 -/

/-- Each step's result carries the resolution of its request position. -/
theorem resizeSteps_resolutions (env : FsEnv) (a o : String) :
    ∀ rs : List Resolution,
      (mcpResizeSteps env a o rs).map (fun p => (Prod.fst p).resolution) = rs := by
  intro rs
  induction rs with
  | nil => rfl
  | cons r rest ih =>
      simp only [mcpResizeSteps, List.map_cons] at *
      rw [resizeOne_resolution, ih]

/-- There are as many results as requested resolutions. -/
theorem mcpResizeResults_length (v : String) (rs : List Resolution)
    (d : Option String) (env : FsEnv) :
    (mcpResizeResults v rs d env).length = rs.length := by
  simp [mcpResizeResults, mcpResizeSteps]

/-- The results list the requested resolutions in request order. -/
theorem mcpResizeResults_resolutions (v : String) (rs : List Resolution)
    (d : Option String) (env : FsEnv) :
    (mcpResizeResults v rs d env).map (fun x => x.resolution) = rs := by
  unfold mcpResizeResults
  rw [List.map_map]
  exact resizeSteps_resolutions env (pathResolve env.cwd v)
    (mcpOutputDirectory d env) rs

/-- C8: when the checks pass and permission is granted, the MCP
`resize-video` tool processes the requested resolutions sequentially in
request order (its exec commands and its results follow the request
list), a failed ffmpeg run stops nothing (there is always one result
line per requested resolution), the reported successful and failed
counts sum to the number of requested resolutions, and the overall
result is never marked `isError`, whatever each run's outcome. -/
theorem claim_C8_resize_loop (v : String) (rs : List Resolution)
    (d : Option String) (env : FsEnv)
    (h1 : env.accessOk (pathResolve env.cwd v) = true)
    (h2 : env.writableOk (mcpOutputDirectory d env) = true)
    (h3 : env.permitted = true) :
    (mcpResizeVideo v rs d env).1.isError = false ∧
    (mcpResizeVideo v rs d env).1.text =
      resizeHeader rs.length
        ((mcpResizeResults v rs d env).filter (fun x => x.success)).length
        (rs.length -
          ((mcpResizeResults v rs d env).filter (fun x => x.success)).length) ++
        String.join ((mcpResizeResults v rs d env).map resizeResultLine) ∧
    ((mcpResizeResults v rs d env).map resizeResultLine).length = rs.length ∧
    (mcpResizeResults v rs d env).map (fun x => x.resolution) = rs ∧
    ((mcpResizeResults v rs d env).filter (fun x => x.success)).length +
        (rs.length -
          ((mcpResizeResults v rs d env).filter (fun x => x.success)).length) =
      rs.length ∧
    execCommands (mcpResizeVideo v rs d env).2 =
      rs.map (fun r => resizeCommand (pathResolve env.cwd v)
        (pathJoin (mcpOutputDirectory d env)
          (mcpResizeOutputFilename (pathResolve env.cwd v) r)) r) := by
  have hrun := mcpResizeVideo_proceed v rs d env h1 h2 h3
  have hlen := mcpResizeResults_length v rs d env
  have hrep : (mcpResizeVideo v rs d env).1.text =
      resizeReport (mcpResizeResults v rs d env) := by
    rw [hrun]
    rfl
  have hle : ((mcpResizeResults v rs d env).filter
      (fun x => x.success)).length ≤ rs.length := by
    rw [← hlen]
    exact List.length_filter_le _ _
  refine ⟨by rw [hrun], ?_, ?_, mcpResizeResults_resolutions v rs d env,
    Nat.add_sub_cancel' hle, ?_⟩
  · rw [hrep]
    unfold resizeReport
    rw [hlen]
  · rw [List.length_map, hlen]
  · rw [hrun]
    simp only [execCommands, List.filterMap_append, List.filterMap_cons,
      List.filterMap_nil, List.nil_append]
    have hsteps := execCommands_resizeSteps env (pathResolve env.cwd v)
      (mcpOutputDirectory d env) rs
    simp only [execCommands] at hsteps
    rw [hsteps]

/-- Witness for C8: a run where both requested resolutions fail. -/
theorem claim_C8_resize_loop_witness :
    (mcpResizeVideo "clip.mp4" [Resolution.r360p, Resolution.r1080p]
      none envExecFails).1.isError = false ∧
    ((mcpResizeResults "clip.mp4" [Resolution.r360p, Resolution.r1080p]
      none envExecFails).map resizeResultLine).length = 2 ∧
    ((mcpResizeResults "clip.mp4" [Resolution.r360p, Resolution.r1080p]
      none envExecFails).filter (fun x => x.success)).length = 0 := by
  have h := claim_C8_resize_loop "clip.mp4"
    [Resolution.r360p, Resolution.r1080p] none envExecFails rfl rfl rfl
  exact ⟨h.1, h.2.2.1.trans (by decide), by decide⟩

/-! ## Claim C9 -/

/-- C9: with no `outputDir` argument the output directory is
`<os-tmpdir>/ffmpeg-output`, falling back to the OS temp directory
itself when the `mkdir` fails; both tools direct their writability check
(and hence their outputs) at that directory, and a `mkdir` failure does
not by itself make the tool call fail. -/
theorem claim_C9_default_output_dir (v : String) (rs : List Resolution)
    (f : AudioFormat) (env : FsEnv) :
    (env.mkdirOk = true →
      mcpOutputDirectory none env = pathJoin env.tmpdir "ffmpeg-output") ∧
    (env.mkdirOk = false → mcpOutputDirectory none env = env.tmpdir) ∧
    (env.accessOk (pathResolve env.cwd v) = true →
      (mcpResizeVideo v rs none env).2.get? 1 =
        some (McpEvent.writableCheck (ensureDirectoriesExist env)) ∧
      (mcpExtractAudio v f none env).2.get? 1 =
        some (McpEvent.writableCheck (ensureDirectoriesExist env))) ∧
    (env.mkdirOk = false →
     env.accessOk (pathResolve env.cwd v) = true →
     env.writableOk env.tmpdir = true →
     env.permitted = true →
      (mcpResizeVideo v rs none env).1.isError = false) := by
  have hout : mcpOutputDirectory none env = ensureDirectoriesExist env := rfl
  refine ⟨fun h => ?_, fun h => ?_, fun h1 => ?_, fun hmk h1 hw h3 => ?_⟩
  · simp [mcpOutputDirectory, ensureDirectoriesExist, h]
  · simp [mcpOutputDirectory, ensureDirectoriesExist, h]
  · by_cases h2 : env.writableOk (mcpOutputDirectory none env) = true
    · by_cases h3 : env.permitted = true
      · rw [mcpResizeVideo_proceed v rs none env h1 h2 h3,
          mcpExtractAudio_trace_proceed v f none env h1 h2 h3]
        exact ⟨rfl, rfl⟩
      · have h3f : env.permitted = false := by
          cases hp : env.permitted
          · rfl
          · exact absurd hp h3
        rw [mcpResizeVideo_denied v rs none env h1 h2 h3f,
          mcpExtractAudio_denied v f none env h1 h2 h3f]
        exact ⟨rfl, rfl⟩
    · have h2f : env.writableOk (mcpOutputDirectory none env) = false := by
        cases hp : env.writableOk (mcpOutputDirectory none env)
        · rfl
        · exact absurd hp h2
      rw [mcpResizeVideo_dirError v rs none env h1 h2f,
        mcpExtractAudio_dirError v f none env h1 h2f]
      exact ⟨rfl, rfl⟩
  · have h2 : env.writableOk (mcpOutputDirectory none env) = true := by
      rw [hout]
      rw [show ensureDirectoriesExist env = env.tmpdir from by
        simp [ensureDirectoriesExist, hmk]]
      exact hw
    rw [mcpResizeVideo_proceed v rs none env h1 h2 h3]

/-- Witness for C9: the default directory, its fallback, and a
successful run despite the failed `mkdir`. -/
theorem claim_C9_default_output_dir_witness :
    mcpOutputDirectory none envAllOk = "/tmp/ffmpeg-output" ∧
    mcpOutputDirectory none envExecFails = "/tmp" ∧
    (mcpResizeVideo "clip.mp4" [Resolution.r360p] none envExecFails).2.get? 1 =
      some (McpEvent.writableCheck "/tmp") ∧
    (mcpResizeVideo "clip.mp4" [Resolution.r360p] none envExecFails).1.isError =
      false := by
  have hA := claim_C9_default_output_dir "clip.mp4" [Resolution.r360p]
    AudioFormat.mp3 envAllOk
  have hB := claim_C9_default_output_dir "clip.mp4" [Resolution.r360p]
    AudioFormat.mp3 envExecFails
  exact ⟨(hA.1 rfl).trans (by decide), (hB.2.1 rfl).trans (by decide),
    ((hB.2.2.1 rfl).1).trans (by decide), hB.2.2.2 rfl rfl rfl rfl⟩

/-! ## HTTP shape lemmas -/

theorem jobStarts_append (a b : List HttpEvent) :
    jobStarts (a ++ b) = jobStarts a ++ jobStarts b := by
  simp [jobStarts]

theorem jobStarts_map_start (l : List String) :
    jobStarts (l.map HttpEvent.jobStart) = l := by
  induction l with
  | nil => rfl
  | cons x xs ih =>
      simp only [jobStarts] at ih
      simp only [jobStarts, List.map_cons, List.filterMap_cons]
      rw [ih]

theorem jobStarts_map_settled (l : List String) :
    jobStarts (l.map HttpEvent.jobSettled) = [] := by
  induction l with
  | nil => rfl
  | cons x xs ih =>
      simp only [jobStarts] at ih
      simp only [jobStarts, List.map_cons, List.filterMap_cons]
      exact ih

theorem httpResize_shape_empty (fileName : String)
    (field : Option (List String)) (env : HttpEnv)
    (h : (httpValidResolutions field).isEmpty = true) :
    httpResizeVideo true fileName field env =
      (HttpResp.badRequest "No valid resolutions specified" RESOLUTION_KEYS,
       [HttpEvent.respond 400]) := by
  simp [httpResizeVideo, h]

theorem httpResize_shape_ok (fileName : String)
    (field : Option (List String)) (env : HttpEnv)
    (hne : (httpValidResolutions field).isEmpty = false)
    (hall : (httpValidResolutions field).all
      (fun r => (env.jobOutcome r).isOk) = true) :
    httpResizeVideo true fileName field env =
      (HttpResp.okFiles "Video processing completed"
         ((httpValidResolutions field).map (fun r =>
           { resolution := r,
             filename := httpResizeOutputFilename (parseName fileName) r,
             urlPath := "/output/" ++
               httpResizeOutputFilename (parseName fileName) r })),
       (httpValidResolutions field).map HttpEvent.jobStart ++
         (httpValidResolutions field).map HttpEvent.jobSettled ++
         [HttpEvent.respond 200]) := by
  simp [httpResizeVideo, hne, hall]

theorem httpResize_shape_fail (fileName : String)
    (field : Option (List String)) (env : HttpEnv)
    (hne : (httpValidResolutions field).isEmpty = false)
    (hall : (httpValidResolutions field).all
      (fun r => (env.jobOutcome r).isOk) = false) :
    httpResizeVideo true fileName field env =
      (HttpResp.serverError
         (((httpValidResolutions field).filterMap (fun r =>
           match env.jobOutcome r with
           | Except.error e => some e
           | Except.ok _ => none)).headD "Error processing video"),
       (httpValidResolutions field).map HttpEvent.jobStart ++
         [HttpEvent.respond 500]) := by
  simp [httpResizeVideo, hne, hall]

/-! ## Claim C7 -/

/-- C7: with an upload and at least one valid resolution, the HTTP
resize endpoint starts one ffmpeg job per valid resolution, all before
any response is sent; the 200 response is sent only after every one of
those jobs settles, and is sent exactly when all of them fulfil, while
any rejection yields a 500 through the single `Promise.all`; each job's
outcome depends only on its own resolution. -/
theorem claim_C7_promise_all (fileName : String)
    (field : Option (List String)) (env : HttpEnv)
    (hv : httpValidResolutions field ≠ []) :
    (httpResizeVideo true fileName field env).2 =
      (httpValidResolutions field).map HttpEvent.jobStart ++
        (if (httpValidResolutions field).all
            (fun r => (env.jobOutcome r).isOk) then
          (httpValidResolutions field).map HttpEvent.jobSettled ++
            [HttpEvent.respond 200]
         else [HttpEvent.respond 500]) ∧
    jobStarts (httpResizeVideo true fileName field env).2 =
      httpValidResolutions field ∧
    ((httpResizeVideo true fileName field env).1 =
        HttpResp.okFiles "Video processing completed"
          ((httpValidResolutions field).map (fun r =>
            { resolution := r,
              filename := httpResizeOutputFilename (parseName fileName) r,
              urlPath := "/output/" ++
                httpResizeOutputFilename (parseName fileName) r })) ↔
      (httpValidResolutions field).all
        (fun r => (env.jobOutcome r).isOk) = true) := by
  have hne : (httpValidResolutions field).isEmpty = false := by
    cases hq : httpValidResolutions field
    · exact absurd hq hv
    · rfl
  by_cases hall : (httpValidResolutions field).all
      (fun r => (env.jobOutcome r).isOk) = true
  · rw [httpResize_shape_ok fileName field env hne hall]
    refine ⟨by simp [hall], ?_, by simp [hall]⟩
    rw [jobStarts_append, jobStarts_append, jobStarts_map_start,
      jobStarts_map_settled]
    simp [jobStarts]
  · have hallf : (httpValidResolutions field).all
        (fun r => (env.jobOutcome r).isOk) = false := by
      cases hq : (httpValidResolutions field).all
          (fun r => (env.jobOutcome r).isOk)
      · rfl
      · exact absurd hq hall
    rw [httpResize_shape_fail fileName field env hne hallf]
    refine ⟨by simp [hallf], ?_, by simp [hallf]⟩
    rw [jobStarts_append, jobStarts_map_start]
    simp [jobStarts]

/-- Witness for C7: all jobs fulfil, and one rejection. -/
theorem claim_C7_promise_all_witness :
    (httpResizeVideo true "u.mp4" (some ["720p", "360p"]) httpEnvOk).2 =
      [HttpEvent.jobStart "720p", HttpEvent.jobStart "360p",
       HttpEvent.jobSettled "720p", HttpEvent.jobSettled "360p",
       HttpEvent.respond 200] ∧
    (httpResizeVideo true "u.mp4" (some ["720p", "360p"]) httpEnvFail).2 =
      [HttpEvent.jobStart "720p", HttpEvent.jobStart "360p",
       HttpEvent.respond 500] := by
  have hA := claim_C7_promise_all "u.mp4" (some ["720p", "360p"])
    httpEnvOk (by decide)
  have hB := claim_C7_promise_all "u.mp4" (some ["720p", "360p"])
    httpEnvFail (by decide)
  exact ⟨hA.1.trans (by decide), hB.1.trans (by decide)⟩

/-! ## Claim C10 -/

/-- C10: the HTTP resize endpoint silently drops unrecognized resolution
names; it keeps exactly the requested names that are valid resolution
keys, defaults to all four when the field is absent, and (given an
upload) answers the 400 listing the valid options precisely when no
requested resolution is valid, starting one job per kept resolution
otherwise. -/
theorem claim_C10_http_resolution_filter (fileName : String)
    (rs : List String) (field : Option (List String)) (env : HttpEnv) :
    httpValidResolutions (some rs) =
      rs.filter (fun r => RESOLUTION_KEYS.contains r) ∧
    httpValidResolutions none = RESOLUTION_KEYS ∧
    (httpValidResolutions field = [] →
      httpResizeVideo true fileName field env =
        (HttpResp.badRequest "No valid resolutions specified" RESOLUTION_KEYS,
         [HttpEvent.respond 400])) ∧
    (httpValidResolutions field ≠ [] →
      jobStarts (httpResizeVideo true fileName field env).2 =
        httpValidResolutions field ∧
      ∀ e vo, (httpResizeVideo true fileName field env).1 ≠
        HttpResp.badRequest e vo) := by
  refine ⟨rfl, by decide, fun h => ?_, fun hv => ?_⟩
  · exact httpResize_shape_empty fileName field env (by rw [h]; rfl)
  · have hne : (httpValidResolutions field).isEmpty = false := by
      cases hq : httpValidResolutions field
      · exact absurd hq hv
      · rfl
    by_cases hall : (httpValidResolutions field).all
        (fun r => (env.jobOutcome r).isOk) = true
    · rw [httpResize_shape_ok fileName field env hne hall]
      refine ⟨?_, by simp⟩
      rw [jobStarts_append, jobStarts_append, jobStarts_map_start,
        jobStarts_map_settled]
      simp [jobStarts]
    · have hallf : (httpValidResolutions field).all
          (fun r => (env.jobOutcome r).isOk) = false := by
        cases hq : (httpValidResolutions field).all
            (fun r => (env.jobOutcome r).isOk)
        · rfl
        · exact absurd hq hall
      rw [httpResize_shape_fail fileName field env hne hallf]
      refine ⟨?_, by simp⟩
      rw [jobStarts_append, jobStarts_map_start]
      simp [jobStarts]

/-- Witness for C10: an unknown name is dropped, an all-unknown request
is answered 400 listing the valid options. -/
theorem claim_C10_http_resolution_filter_witness :
    httpValidResolutions (some ["999p", "720p"]) = ["720p"] ∧
    jobStarts (httpResizeVideo true "u.mp4" (some ["999p", "720p"])
      httpEnvOk).2 = ["720p"] ∧
    httpResizeVideo true "u.mp4" (some ["999p"]) httpEnvOk =
      (HttpResp.badRequest "No valid resolutions specified"
        ["360p", "480p", "720p", "1080p"],
       [HttpEvent.respond 400]) := by
  have hA := claim_C10_http_resolution_filter "u.mp4" ["999p", "720p"]
    (some ["999p", "720p"]) httpEnvOk
  have hB := claim_C10_http_resolution_filter "u.mp4" ["999p"]
    (some ["999p"]) httpEnvOk
  exact ⟨by decide, ((hA.2.2.2 (by decide)).1).trans (by decide),
    (hB.2.2.1 (by decide)).trans (by decide)⟩

end McpFfmpeg
